import Mathlib

/-!
Verification development for the drawing-explorer layout engine.

This file gives a shallow embedding of the core data structures and
operations of the repository and proves properties about them:

* the file-tree manager (`frontend/packages/file-tree/src/core/FileTreeManager.ts`),
* the duplicate-name check of the OPFS store
  (`frontend/apps/web/src/stores/opfsStore.ts`, `OPFSStore.checkDuplicateName`),
* the docking manager (`DockingManager` in the same store file),
* the per-panel history engine (`HistoryManager` in
  `frontend/apps/web/src/components/Sidebar/Sidebar.tsx`),
* the drag-drop position classifier
  (`frontend/packages/dock/src/utils/index.ts`, `calculateDropPosition`).

Modelling conventions:

* JavaScript numbers that only ever hold fractional layout sizes or pixel
  coordinates are modelled as `ℚ`; none of the embedded code paths perform
  arithmetic where rationals and IEEE doubles could diverge (the values are
  stored, compared, added and subtracted, with small literals).
* `Map`s are modelled as association lists with `lookup` / `set` / `delete`
  realised extensionally (insertion order of unrelated keys is not tracked;
  no embedded operation enumerates a map).
* The TypeScript classes mutate objects in place; object references held by
  the path indices alias nodes of the tree.  The embedding keeps the tree as
  the single value and realises a mutation of an aliased folder object as an
  update of the tree at that folder's path.  This is exact whenever the
  indices index the tree (the invariant `buildIndices` establishes).
* `createIdBySeed` (a seeded PRNG over the nanoid alphabet) is a
  deterministic function of its seed string; the docking-manager embedding
  takes it as an explicit function parameter `idGen : String → String`, and
  `Date.now()` as an explicit `now : Nat`.  All facts proved below hold for
  every choice of `idGen`, in particular for the real seeded generator.
* Event emitter payloads are omitted; emitted events are returned as an
  ordered list of event names.
-/

namespace DrawingExplorer

/-! ## String helpers -/

/-- Index of the last `'/'` in `s`, as `String.lastIndexOf("/")` (but `none`
instead of `-1`). -/
def lastSlashIdx? (s : String) : Option Nat :=
  ((s.data.enum.filter (fun ic => ic.2 = '/')).map (·.1)).getLast?

/-- TS `FileTreeManager.getParentPath`: `null` when `lastIndexOf("/") <= 0`,
otherwise the prefix before the last slash. -/
def ftGetParentPath (path : String) : Option String :=
  match lastSlashIdx? path with
  | none => none
  | some i => if i = 0 then none else some (path.take i)

/-- JS `toLowerCase()`, modelled character-wise with the ASCII case mapping
(the embedded code only compares file names with it). -/
def jsToLower (s : String) : String := String.mk (s.data.map Char.toLower)

/-! ## File tree: data model

`TreeNode` of `frontend/packages/file-tree/src/types/index.ts`: a file node
carries opaque metadata `α`, a folder node an ordered child list.  Every node
carries `id`, `name`, `path`, `depth`. -/

inductive TreeNode (α : Type) where
  | file (id name path : String) (depth : Nat) (data : α)
  | folder (id name path : String) (depth : Nat) (children : List (TreeNode α))
  deriving Repr

namespace TreeNode

def path {α : Type} : TreeNode α → String
  | .file _ _ p _ _ => p
  | .folder _ _ p _ _ => p

def name {α : Type} : TreeNode α → String
  | .file _ n _ _ _ => n
  | .folder _ n _ _ _ => n

def isFolder {α : Type} : TreeNode α → Bool
  | .file _ _ _ _ _ => false
  | .folder _ _ _ _ _ => true

def childrenOf {α : Type} : TreeNode α → List (TreeNode α)
  | .file _ _ _ _ _ => []
  | .folder _ _ _ _ cs => cs

end TreeNode

/-- State of a `FileTreeManager` instance: the root folder (or `null`), the
two path indices, and the selection / expansion / focus state. -/
structure FTState (α : Type) where
  root : Option (TreeNode α)
  fileIndex : List (String × TreeNode α)
  folderIndex : List (String × TreeNode α)
  selectedIds : List String
  anchorId : Option String
  lastSelectedId : Option String
  isAddMode : Bool
  expandedPaths : List String
  focusedPath : Option String

/-! ## File tree: lookups

`getFile` / `getFolder` / `getNode` read the `Map` indices whose values alias
tree nodes; they are realised as path lookups in the tree (exact whenever the
indices index the tree). -/

mutual

/-- First node (preorder) whose stored `path` equals `p`. -/
def findNodeByPath {α : Type} : TreeNode α → String → Option (TreeNode α)
  | .file i n q d a, p => if q = p then some (.file i n q d a) else none
  | .folder i n q d cs, p =>
      if q = p then some (.folder i n q d cs) else findNodeByPathList cs p

def findNodeByPathList {α : Type} : List (TreeNode α) → String → Option (TreeNode α)
  | [], _ => none
  | c :: rest, p =>
      match findNodeByPath c p with
      | some r => some r
      | none => findNodeByPathList rest p

end

mutual

/-- First folder node (preorder) whose stored `path` equals `p`. -/
def findFolderByPath {α : Type} : TreeNode α → String → Option (TreeNode α)
  | .file _ _ _ _ _, _ => none
  | .folder i n q d cs, p =>
      if q = p then some (.folder i n q d cs) else findFolderByPathList cs p

def findFolderByPathList {α : Type} : List (TreeNode α) → String → Option (TreeNode α)
  | [], _ => none
  | c :: rest, p =>
      match findFolderByPath c p with
      | some r => some r
      | none => findFolderByPathList rest p

end

/-- TS `getNode(path)`: `fileIndex.get(path) ?? folderIndex.get(path)`. -/
def getNodeT {α : Type} (st : FTState α) (p : String) : Option (TreeNode α) :=
  st.root.bind (fun r => findNodeByPath r p)

/-- TS `getFolder(path)`: `folderIndex.get(path)`. -/
def getFolderT {α : Type} (st : FTState α) (p : String) : Option (TreeNode α) :=
  st.root.bind (fun r => findFolderByPath r p)

mutual

/-- TS `collectDescendantPaths(folder)`: for each child, its path followed by
its own descendants' paths. -/
def collectDescendantPaths {α : Type} : TreeNode α → List String
  | .file _ _ _ _ _ => []
  | .folder _ _ _ _ cs => collectDescendantPathsList cs

def collectDescendantPathsList {α : Type} : List (TreeNode α) → List String
  | [] => []
  | c :: rest => (c.path :: collectDescendantPaths c) ++ collectDescendantPathsList rest

end

/-- TS `getDescendants(path)`: empty for a missing node or a file. -/
def getDescendants {α : Type} (st : FTState α) (p : String) : List String :=
  match getNodeT st p with
  | none => []
  | some (.file _ _ _ _ _) => []
  | some n => collectDescendantPaths n

/-- TS `getSelfAndDescendants(path)`. -/
def getSelfAndDescendants {α : Type} (st : FTState α) (p : String) : List String :=
  p :: getDescendants st p

/-! ## File tree: index bookkeeping -/

/-- Extensional model of `Map.delete`. -/
def mapDelete {β : Type} (m : List (String × β)) (k : String) : List (String × β) :=
  m.filter (fun kv => kv.1 ≠ k)

/-- Extensional model of `Map.set`. -/
def mapSet {β : Type} (m : List (String × β)) (k : String) (v : β) : List (String × β) :=
  (k, v) :: mapDelete m k

mutual

/-- TS constructor helper `buildIndices`: preorder insertion of every file
into the file index and every folder into the folder index. -/
def buildIndices {α : Type} : TreeNode α →
    List (String × TreeNode α) × List (String × TreeNode α) →
    List (String × TreeNode α) × List (String × TreeNode α)
  | .file i n p d a, (fIdx, dIdx) => (mapSet fIdx p (.file i n p d a), dIdx)
  | .folder i n p d cs, (fIdx, dIdx) =>
      buildIndicesList cs (fIdx, mapSet dIdx p (.folder i n p d cs))

def buildIndicesList {α : Type} : List (TreeNode α) →
    List (String × TreeNode α) × List (String × TreeNode α) →
    List (String × TreeNode α) × List (String × TreeNode α)
  | [], acc => acc
  | c :: rest, acc => buildIndicesList rest (buildIndices c acc)

end

/-- The manager constructed from a root folder (`new FileTreeManager(root)`). -/
def FTState.ofRoot {α : Type} (root : TreeNode α) : FTState α :=
  let (fIdx, dIdx) := buildIndices root ([], [])
  { root := some root
    fileIndex := fIdx
    folderIndex := dIdx
    selectedIds := []
    anchorId := none
    lastSelectedId := none
    isAddMode := false
    expandedPaths := []
    focusedPath := none }

/-! ## File tree: moveNode -/

/-- Where a parent-folder object was obtained from: `this._root` directly, or
the folder index at a path.  Mutating the aliased object is realised as an
update of the tree at that location. -/
inductive FolderLoc where
  | rootLoc
  | pathLoc (p : String)

/-- The folder object at a location (`this._root` or `getFolder(p)`). -/
def folderAtLoc {α : Type} (root? : Option (TreeNode α)) : FolderLoc → Option (TreeNode α)
  | .rootLoc => root?
  | .pathLoc p => root?.bind (fun r => findFolderByPath r p)

/-- Location of the parent folder of the node at `p`: the folder index at the
parent path when there is one, `this._root` otherwise. -/
def parentLocOf (p : String) : FolderLoc :=
  match ftGetParentPath p with
  | some q => .pathLoc q
  | none => .rootLoc

mutual

/-- Apply `f` to the child list of the folder at path `tp` (the tree-side
realisation of mutating the aliased folder object). -/
def updateFolderAt {α : Type} : TreeNode α → String →
    (List (TreeNode α) → List (TreeNode α)) → TreeNode α
  | .file i n p d a, _, _ => .file i n p d a
  | .folder i n p d cs, tp, f =>
      if p = tp then .folder i n p d (f cs)
      else .folder i n p d (updateFolderAtList cs tp f)

def updateFolderAtList {α : Type} : List (TreeNode α) → String →
    (List (TreeNode α) → List (TreeNode α)) → List (TreeNode α)
  | [], _, _ => []
  | c :: rest, tp, f => updateFolderAt c tp f :: updateFolderAtList rest tp f

end

/-- Mutation of the child list of the folder object at `loc`. -/
def modifyAtLoc {α : Type} (root? : Option (TreeNode α)) (loc : FolderLoc)
    (f : List (TreeNode α) → List (TreeNode α)) : Option (TreeNode α) :=
  match root?, loc with
  | none, _ => none
  | some r, .rootLoc =>
      some (match r with
            | .file i n p d a => .file i n p d a
            | .folder i n p d cs => .folder i n p d (f cs))
  | some r, .pathLoc p => some (updateFolderAt r p f)

/-- TS `Array.findIndex` (first index satisfying the predicate). -/
def findIndexFrom {β : Type} (p : β → Bool) : List β → Nat → Option Nat
  | [], _ => none
  | b :: rest, i => if p b then some i else findIndexFrom p rest (i + 1)

def findIndex {β : Type} (p : β → Bool) (l : List β) : Option Nat :=
  findIndexFrom p l 0

mutual

/-- TS `updatePaths` closure inside `moveNode`: rewrite `path` and `depth` of
the moved subtree and update both indices, returning the rebuilt node and the
new indices.  A file deletes its old file-index entry and sets the new one; a
folder deletes its old folder-index entry, rewrites its children (at
`depth + 1`), then sets its new folder-index entry. -/
def updatePaths {α : Type} : TreeNode α → String → Nat →
    List (String × TreeNode α) → List (String × TreeNode α) →
    TreeNode α × List (String × TreeNode α) × List (String × TreeNode α)
  | .file i n p _ a, parentPath, depth, fIdx, dIdx =>
      let nodePath := if parentPath ≠ "" then parentPath ++ "/" ++ n else n
      let fIdx1 := mapDelete fIdx p
      let updated : TreeNode α := .file i n nodePath depth a
      (updated, mapSet fIdx1 nodePath updated, dIdx)
  | .folder i n p _ cs, parentPath, depth, fIdx, dIdx =>
      let nodePath := if parentPath ≠ "" then parentPath ++ "/" ++ n else n
      let dIdx1 := mapDelete dIdx p
      let (cs', fIdx', dIdx') := updatePathsList cs nodePath depth fIdx dIdx1
      let updated : TreeNode α := .folder i n nodePath depth cs'
      (updated, fIdx', mapSet dIdx' nodePath updated)

def updatePathsList {α : Type} : List (TreeNode α) → String → Nat →
    List (String × TreeNode α) → List (String × TreeNode α) →
    List (TreeNode α) × List (String × TreeNode α) × List (String × TreeNode α)
  | [], _, _, fIdx, dIdx => ([], fIdx, dIdx)
  | c :: rest, parentPath, depth, fIdx, dIdx =>
      let (c', fIdx1, dIdx1) := updatePaths c parentPath (depth + 1) fIdx dIdx
      let (rest', fIdx2, dIdx2) := updatePathsList rest parentPath depth fIdx1 dIdx1
      (c' :: rest', fIdx2, dIdx2)

end

/-- Drop positions of the file tree (`DropPosition`). -/
inductive DropPosition where
  | before
  | after
  | inside
  deriving DecidableEq, Repr

/-- TS `FileTreeManager.moveNode(sourcePath, targetPath, position)`.

Transcribed control flow: look up source and target; reject self- and
descendant-targets; locate the source parent and the source's index in its
children; splice the source out of the parent's children; resolve the target
parent (the target itself for `inside`, rejecting non-folders; otherwise the
target's parent) and the insertion index; rewrite paths, depths and indices of
the moved subtree; splice it into the target parent's children.

Note that the splice out of the source parent happens before the remaining
validation, exactly as in the source: the `return false` branches after it
leave the source node detached. -/
def moveNode {α : Type} (st : FTState α) (sourcePath targetPath : String)
    (position : DropPosition) : Bool × FTState α :=
  match getNodeT st sourcePath, getNodeT st targetPath with
  | none, _ => (false, st)
  | some _, none => (false, st)
  | some _, some targetNode =>
    if sourcePath = targetPath ∨ targetPath ∈ getSelfAndDescendants st sourcePath then
      (false, st)
    else
      let sourceLoc : FolderLoc := parentLocOf sourcePath
      match folderAtLoc st.root sourceLoc with
      | none => (false, st)
      | some sp =>
        match findIndex (fun c => c.path = sourcePath) sp.childrenOf with
        | none => (false, st)
        | some sourceIndex =>
          let root1 := modifyAtLoc st.root sourceLoc (fun cs => cs.eraseIdx sourceIndex)
          match sp.childrenOf[sourceIndex]? with
          | none => (false, { st with root := root1 })
          | some removedNode =>
            let insertInfo : Option (FolderLoc × Nat) :=
              match position with
              | .inside =>
                  if targetNode.isFolder then some (.pathLoc targetPath, 0) else none
              | _ =>
                  let targetLoc : FolderLoc := parentLocOf targetPath
                  match folderAtLoc root1 targetLoc with
                  | none => none
                  | some tp =>
                      match findIndex (fun c => c.path = targetPath) tp.childrenOf with
                      | none => none
                      | some ti =>
                          some (targetLoc, if position = .before then ti else ti + 1)
            match insertInfo with
            | none => (false, { st with root := root1 })
            | some (targetLoc, insertIndex) =>
              match folderAtLoc root1 targetLoc with
              | none => (false, { st with root := root1 })
              | some tp =>
                let newParentPath := tp.path
                let newDepth :=
                  (if tp.path ≠ "" then (tp.path.splitOn "/").length else 0) + 1
                let (updatedNode, fIdx', dIdx') :=
                  updatePaths removedNode newParentPath newDepth st.fileIndex st.folderIndex
                let root2 := modifyAtLoc root1 targetLoc
                  (fun cs => cs.insertIdx insertIndex updatedNode)
                (true, { st with root := root2, fileIndex := fIdx', folderIndex := dIdx' })

/-- Names of the root folder's children, used to observe tree changes. -/
def rootChildNames {α : Type} (st : FTState α) : List String :=
  match st.root with
  | some (.folder _ _ _ _ cs) => cs.map (·.name)
  | _ => []

/-! ## OPFS store: duplicate-name check

`OPFSStore.checkDuplicateName(parentPath, name, excludePath?)` walks the
children of the parent folder (`this._root` for the empty path, else the
folder index) and reports an error string when a non-excluded sibling has the
same name case-insensitively. -/

/-- Scan of the parent's children (the `for` loop of `checkDuplicateName`). -/
def dupNameScan {α : Type} (name : String) (excludePath : Option String) :
    List (TreeNode α) → Option String
  | [] => none
  | child :: rest =>
      if excludePath = some child.path then dupNameScan name excludePath rest
      else if jsToLower child.name = jsToLower name then
        some ("同じ名前の" ++ (if child.isFolder then "フォルダ" else "ファイル") ++
          "「" ++ child.name ++ "」が既に存在します")
      else dupNameScan name excludePath rest

/-- TS `OPFSStore.checkDuplicateName`.  Returns the error message when a
duplicate exists, `null` otherwise (also `null` when the parent is missing). -/
def checkDuplicateName {α : Type} (root? : Option (TreeNode α))
    (parentPath name : String) (excludePath : Option String) : Option String :=
  let parent? := if parentPath = "" then root?
    else root?.bind (fun r => findFolderByPath r parentPath)
  match parent? with
  | none => none
  | some parent => dupNameScan name excludePath parent.childrenOf

/-! ## History engine

`HistoryManager` of `Sidebar.tsx`: immutable undo/redo stacks of entries
`{strokes, timestamp}` with a size bound and a saved-entry marker.  Strokes
are opaque to the engine and modelled by a type parameter; `Date.now()` is an
explicit argument. -/

structure HistoryEntry (α : Type) where
  strokes : List α
  timestamp : Nat
  deriving DecidableEq, Repr

structure HistoryManager (α : Type) where
  undoStack : List (HistoryEntry α)
  redoStack : List (HistoryEntry α)
  maxHistorySize : Nat
  savedEntry : Option (HistoryEntry α)
  deriving DecidableEq, Repr

namespace HistoryManager

/-- TS `HistoryManager.create(maxHistorySize = 100)`. -/
def create (α : Type) (maxHistorySize : Nat := 100) : HistoryManager α :=
  ⟨[], [], maxHistorySize, none⟩

/-- TS `getCurrentStrokes()`: strokes of the top of the undo stack, `[]` when
empty. -/
def getCurrentStrokes {α : Type} (h : HistoryManager α) : List α :=
  match h.undoStack.getLast? with
  | some e => e.strokes
  | none => []

/-- TS `push(strokes)`: append `{strokes, Date.now()}`, trim the front when
the length exceeds `maxHistorySize` (`slice(length - maxHistorySize)`), and
clear the redo stack. -/
def push {α : Type} (h : HistoryManager α) (strokes : List α) (now : Nat) :
    HistoryManager α :=
  let entry : HistoryEntry α := ⟨strokes, now⟩
  let newUndoStack := h.undoStack ++ [entry]
  let newUndoStack :=
    if newUndoStack.length > h.maxHistorySize then
      newUndoStack.drop (newUndoStack.length - h.maxHistorySize)
    else newUndoStack
  ⟨newUndoStack, [], h.maxHistorySize, h.savedEntry⟩

/-- Model of the TS history initialisation method (a single entry that is
also the saved entry).  Renamed to `initHistory` in this development. -/
def initHistory {α : Type} (h : HistoryManager α) (strokes : List α) (now : Nat) :
    HistoryManager α :=
  let entry : HistoryEntry α := ⟨strokes, now⟩
  ⟨[entry], [], h.maxHistorySize, some entry⟩

/-- TS `undo()`: requires more than one undo entry; pops the top onto the redo
stack and returns the new manager with the new current strokes. -/
def undo {α : Type} (h : HistoryManager α) :
    Option (HistoryManager α × List α) :=
  if h.undoStack.length ≤ 1 then none
  else
    match h.undoStack.getLast? with
    | none => none
    | some currentEntry =>
      let m : HistoryManager α :=
        ⟨h.undoStack.dropLast, h.redoStack ++ [currentEntry],
          h.maxHistorySize, h.savedEntry⟩
      some (m, m.getCurrentStrokes)

/-- TS `redo()`: requires a non-empty redo stack; pops its top back onto the
undo stack and returns that entry's strokes. -/
def redo {α : Type} (h : HistoryManager α) :
    Option (HistoryManager α × List α) :=
  if h.redoStack.length = 0 then none
  else
    match h.redoStack.getLast? with
    | none => none
    | some nextEntry =>
      some (⟨h.undoStack ++ [nextEntry], h.redoStack.dropLast,
        h.maxHistorySize, h.savedEntry⟩, nextEntry.strokes)

/-- TS `markSaved()`: saved entry becomes the current top (or `null`). -/
def markSaved {α : Type} (h : HistoryManager α) : HistoryManager α :=
  ⟨h.undoStack, h.redoStack, h.maxHistorySize, h.undoStack.getLast?⟩

/-- TS `clear()`. -/
def clear {α : Type} (h : HistoryManager α) : HistoryManager α :=
  ⟨[], [], h.maxHistorySize, none⟩

/-- Sequence of `push` calls, each with its strokes and its `Date.now()`. -/
def pushMany {α : Type} (h : HistoryManager α) (calls : List (List α × Nat)) :
    HistoryManager α :=
  calls.foldl (fun m c => m.push c.1 c.2) h

end HistoryManager

/-! ## Dock tree: data model

`DockNode` of `frontend/packages/dock/src/types/index.ts`: a panel leaf, a
binary split container, or a tab container holding panel leaves.  The opaque
`React.ReactNode` content of a panel is modelled as `Option String`. -/

inductive SplitDirection where
  | horizontal
  | vertical
  deriving DecidableEq, Repr

inductive DockingPosition where
  | top
  | right
  | bottom
  | left
  | tabBefore
  | tabAfter
  | tabInto
  deriving DecidableEq, Repr

structure PanelNode where
  id : String
  title : Option String
  content : Option String
  contentKey : String
  deriving DecidableEq, Repr

inductive DockNode where
  | panel (p : PanelNode)
  | container (id : String) (splitDirection : SplitDirection)
      (first second : DockNode) (size : ℚ)
  | tabContainer (id : String) (panels : List PanelNode) (activeId : Option String)
  deriving DecidableEq, Repr

namespace DockNode

def getId : DockNode → String
  | .panel p => p.id
  | .container i _ _ _ _ => i
  | .tabContainer i _ _ => i

def isPanel : DockNode → Bool
  | .panel _ => true
  | _ => false

def isContainer : DockNode → Bool
  | .container _ _ _ _ _ => true
  | _ => false

def isTabContainer : DockNode → Bool
  | .tabContainer _ _ _ => true
  | _ => false

/-- Number of tree nodes (panels inside a tab container are part of the tab
container node); used as recursion fuel for `rebalanceTree`. -/
def nodeCount : DockNode → Nat
  | .panel _ => 1
  | .container _ _ f s _ => f.nodeCount + s.nodeCount + 1
  | .tabContainer _ _ _ => 1

/-- Every `id` occurring in the tree, in preorder. -/
def collectIds : DockNode → List String
  | .panel p => [p.id]
  | .container i _ f s _ => i :: (collectIds f ++ collectIds s)
  | .tabContainer i panels _ => i :: panels.map (·.id)

end DockNode

/-- Dock manager events, in emission order.  Payloads are omitted. -/
inductive DockEvent where
  | panelAdded
  | panelRemoved
  | panelEdited
  | panelMoved
  | resize
  | activePanelChanged
  | layoutChanged
  | panelMaximized
  | panelRestored
  deriving DecidableEq, Repr

/-- `DockingState` without the opaque `instanceId` token (a `Symbol` that no
embedded operation reads). -/
structure DockingState where
  root : DockNode
  activePanels : List (String × String)
  maximizedPanelId : Option String
  deriving DecidableEq, Repr

/-! ## Dock tree: traversal helpers -/

/-- TS `findNodeById`: the node itself when ids match, else recursion into
container children, else a scan of a tab container's panels. -/
def findNodeById : DockNode → String → Option DockNode
  | .panel p, i => if p.id = i then some (.panel p) else none
  | .container ci d f s sz, i =>
      if ci = i then some (.container ci d f s sz)
      else
        match findNodeById f i with
        | some r => some r
        | none => findNodeById s i
  | .tabContainer ti panels a, i =>
      if ti = i then some (.tabContainer ti panels a)
      else
        match panels.find? (fun p => p.id = i) with
        | some p => some (.panel p)
        | none => none

/-- TS `replaceNode`: replace every node whose id is `targetId` by `newNode`;
inside a tab container the replacement happens only when `newNode` is a
panel, re-targeting `activeId` when it pointed at the replaced panel. -/
def replaceNode : DockNode → String → DockNode → DockNode
  | .panel p, targetId, newNode =>
      if p.id = targetId then newNode else .panel p
  | .container i d f s sz, targetId, newNode =>
      if i = targetId then newNode
      else .container i d (replaceNode f targetId newNode)
        (replaceNode s targetId newNode) sz
  | .tabContainer i panels activeId, targetId, newNode =>
      if i = targetId then newNode
      else
        match findIndex (fun p => p.id = targetId) panels with
        | some panelIndex =>
            match newNode with
            | .panel np =>
                .tabContainer i (panels.set panelIndex np)
                  (if activeId = some targetId then some np.id else activeId)
            | _ => .tabContainer i panels activeId
        | none => .tabContainer i panels activeId

/-- TS `removeNodeFromTree`: removal of the node with id `removeId`, threading
the `activePanels` map.  A container with a removed child collapses to the
surviving child; a tab container drops the panel, re-deriving `activeId`
(next panel at the clamped index) when the removed panel was active or no
panel was active. -/
def removeNodeFromTree : DockNode → String → List (String × String) →
    Option DockNode × List (String × String)
  | .panel p, removeId, activePanels =>
      if p.id = removeId then (none, activePanels) else (some (.panel p), activePanels)
  | .container i d f s sz, removeId, activePanels =>
      if i = removeId then (none, activePanels)
      else
        let (newFirst, ap1) := removeNodeFromTree f removeId activePanels
        let (newSecond, ap2) := removeNodeFromTree s removeId ap1
        match newFirst, newSecond with
        | none, none => (none, ap2)
        | none, some ns => (some ns, ap2)
        | some nf, none => (some nf, ap2)
        | some nf, some ns => (some (.container i d nf ns sz), ap2)
  | .tabContainer i panels activeId, removeId, activePanels =>
      if i = removeId then (none, activePanels)
      else
        match findIndex (fun p => p.id = removeId) panels with
        | some panelIndex =>
            let newPanels := panels.filter (fun p => p.id ≠ removeId)
            if newPanels.length = 0 then (none, mapDelete activePanels i)
            else
              if activeId = some removeId ∨ activeId = none then
                match newPanels[min panelIndex (newPanels.length - 1)]? with
                | some np =>
                    (some (.tabContainer i newPanels (some np.id)),
                      mapSet activePanels i np.id)
                | none => (some (.tabContainer i newPanels activeId), activePanels)
              else (some (.tabContainer i newPanels activeId), activePanels)
        | none => (some (.tabContainer i panels activeId), activePanels)

/-- TS `getParentTabContainerInTree`: the tab container holding the panel with
id `targetId` (never the node with that id itself). -/
def getParentTabContainerInTree : DockNode → String → Option DockNode
  | .panel _, _ => none
  | .container i _ f s _, targetId =>
      if i = targetId then none
      else
        match getParentTabContainerInTree f targetId with
        | some r => some r
        | none => getParentTabContainerInTree s targetId
  | .tabContainer i panels a, targetId =>
      if i = targetId then none
      else if panels.any (fun p => p.id = targetId) then
        some (.tabContainer i panels a)
      else none

/-- TS `updateNodeSize`: set `size` of every container whose id is `nodeId`
(without descending into a matched container); panels and tab-container
panels are returned unchanged. -/
def updateNodeSize : DockNode → String → ℚ → DockNode
  | .panel p, _, _ => .panel p
  | .container i d f s sz, nodeId, newSize =>
      if i = nodeId then .container i d f s newSize
      else .container i d (updateNodeSize f nodeId newSize)
        (updateNodeSize s nodeId newSize) sz
  | .tabContainer i panels a, _, _ => .tabContainer i panels a

/-- TS `recalcActivePanels`: for every tab container, keep a still-valid
`activeId`, else a still-valid previously recorded id, else the first panel.
The traversal visits containers first-then-second; a tab container's panels
contain no nested tab containers. -/
def recalcActivePanels (root : DockNode) (currentActive : List (String × String)) :
    List (String × String) :=
  go root []
where
  go : DockNode → List (String × String) → List (String × String)
    | .panel _, result => result
    | .container _ _ f s _, result => go s (go f result)
    | .tabContainer i panels activeId, result =>
        match activeId with
        | some a =>
            if panels.any (fun p => p.id = a) then mapSet result i a
            else fallback i panels result
        | none => fallback i panels result
  fallback : String → List PanelNode → List (String × String) →
      List (String × String)
    | i, panels, result =>
        match currentActive.lookup i with
        | some cur =>
            if panels.any (fun p => p.id = cur) then mapSet result i cur
            else
              match panels with
              | p0 :: _ => mapSet result i p0.id
              | [] => result
        | none =>
            match panels with
            | p0 :: _ => mapSet result i p0.id
            | [] => result

/-! ## Dock tree: structural normalisation -/

/-- TS `optimizeTreeStructure`: tab containers with one panel collapse to the
panel, with zero panels they vanish; containers with a vanished side collapse
to the surviving side; `activeId` is clamped to a member panel.
(`optimizeTreeStructure` of a panel is the panel itself, so the map-filter
over a tab container's panels is the identity.) -/
def optimizeTreeStructure : DockNode → Option DockNode
  | .panel p => some (.panel p)
  | .container i d f s sz =>
      match optimizeTreeStructure f, optimizeTreeStructure s with
      | none, os => os
      | some of, none => some of
      | some of, some os => some (.container i d of os sz)
  | .tabContainer i panels activeId =>
      match panels with
      | [] => none
      | [p0] => some (.panel p0)
      | p0 :: p1 :: rest =>
          let newActive :=
            match activeId with
            | some a =>
                if (p0 :: p1 :: rest).any (fun p => p.id = a) then a else p0.id
            | none => p0.id
          some (.tabContainer i (p0 :: p1 :: rest) (some newActive))

/-- Fueled transcription of TS `rebalanceTree`.  The source recurses into the
children of an already-rebalanced child when split directions coincide; that
recursion always descends into nodes of strictly smaller `nodeCount`
(rebalancing never grows a tree), so `nodeCount` fuel makes the fueled
function agree with the source on every input. -/
def rebalanceTreeFuel : Nat → DockNode → DockNode
  | 0, node => node
  | _, .panel p => .panel p
  | fuel + 1, .container i d f s sz =>
      let left := rebalanceTreeFuel fuel f
      let right := rebalanceTreeFuel fuel s
      let left :=
        match left with
        | .container li ld lf ls lsz =>
            if ld = d then
              DockNode.container li ld (rebalanceTreeFuel fuel lf)
                (rebalanceTreeFuel fuel ls) lsz
            else .container li ld lf ls lsz
        | other => other
      let right :=
        match right with
        | .container ri rd rf rs rsz =>
            if rd = d then
              DockNode.container ri rd (rebalanceTreeFuel fuel rf)
                (rebalanceTreeFuel fuel rs) rsz
            else .container ri rd rf rs rsz
        | other => other
      .container i d left right sz
  | _, .tabContainer i panels activeId =>
      match panels with
      | [] => .tabContainer i [] activeId
      | [p0] => .panel p0
      | p0 :: p1 :: rest =>
          let newActive :=
            match activeId with
            | some a =>
                if (p0 :: p1 :: rest).any (fun p => p.id = a) then a else p0.id
            | none => p0.id
          .tabContainer i (p0 :: p1 :: rest) (some newActive)

/-- TS `rebalanceTree` (see `rebalanceTreeFuel`). -/
def rebalanceTree (node : DockNode) : DockNode :=
  rebalanceTreeFuel node.nodeCount node

/-! ## Dock tree: insertion helpers -/

/-- TS `createSplitWithTarget`: wrap source panel and target in a new
container (horizontal for left/right, vertical otherwise; source first for
top/left) and substitute it for the target.  The container id is seeded with
`Date.now()`. -/
def createSplitWithTarget (idGen : String → String) (now : Nat) (root : DockNode)
    (sourcePanel : PanelNode) (target : DockNode) (position : DockingPosition) :
    DockNode :=
  let isHorizontal := position = .left ∨ position = .right
  let splitDirection := if isHorizontal then SplitDirection.horizontal else .vertical
  let (firstChild, secondChild) :=
    if position = .top ∨ position = .left then (DockNode.panel sourcePanel, target)
    else (target, DockNode.panel sourcePanel)
  let newContainer : DockNode :=
    .container (idGen ("container-" ++ toString now)) splitDirection
      firstChild secondChild (1 / 2)
  replaceNode root target.getId newContainer

/-- TS `addToExistingTabGroup`: append the source panel to the tab container
with the given id (activating it) unless a panel with its id is already
there. -/
def addToExistingTabGroup : DockNode → String → PanelNode → DockNode
  | .panel p, _, _ => .panel p
  | .container i d f s sz, tabContainerId, sourcePanel =>
      .container i d (addToExistingTabGroup f tabContainerId sourcePanel)
        (addToExistingTabGroup s tabContainerId sourcePanel) sz
  | .tabContainer i panels activeId, tabContainerId, sourcePanel =>
      if i = tabContainerId then
        if (panels.find? (fun p => p.id = sourcePanel.id)).isNone then
          .tabContainer i (panels ++ [sourcePanel]) (some sourcePanel.id)
        else .tabContainer i panels activeId
      else .tabContainer i panels activeId

/-- TS `createTabGroup`: when the target already lives in a tab container,
append there; when the target is a bare panel, replace it by a fresh
two-panel tab container (id seeded with `Date.now()`). -/
def createTabGroup (idGen : String → String) (now : Nat) (root : DockNode)
    (targetId : String) (sourcePanel : PanelNode) : DockNode :=
  match getParentTabContainerInTree root targetId with
  | some parentTab => addToExistingTabGroup root parentTab.getId sourcePanel
  | none =>
      match findNodeById root targetId with
      | some (.panel targetPanel) =>
          let newTab : DockNode :=
            .tabContainer (idGen ("tab-" ++ toString now))
              [targetPanel, sourcePanel] (some sourcePanel.id)
          replaceNode root targetId newTab
      | _ => root

/-- TS `reorderTabsInContainer`: inside the tab container with the given id,
`tab-into` only activates the source panel; `tab-before`/`tab-after` splice
the source out and back in relative to the target, activating it. -/
def reorderTabsInContainer (root : DockNode)
    (tabContainerId sourceTabId targetTabId : String) (position : DockingPosition) :
    DockNode :=
  match root with
  | .panel p => .panel p
  | .container i d f s sz =>
      .container i d
        (reorderTabsInContainer f tabContainerId sourceTabId targetTabId position)
        (reorderTabsInContainer s tabContainerId sourceTabId targetTabId position) sz
  | .tabContainer i panels activeId =>
      if i = tabContainerId then
        match findIndex (fun p => p.id = sourceTabId) panels with
        | none => .tabContainer i panels activeId
        | some sourceIndex =>
            match panels[sourceIndex]? with
            | none => .tabContainer i panels activeId
            | some sourcePanel =>
                if position = .tabInto then
                  .tabContainer i panels (some sourcePanel.id)
                else
                  let panels1 := panels.eraseIdx sourceIndex
                  match findIndex (fun p => p.id = targetTabId) panels1 with
                  | none =>
                      .tabContainer i (panels1 ++ [sourcePanel]) (some sourcePanel.id)
                  | some targetIndex =>
                      let insertIndex :=
                        if position = .tabAfter then targetIndex + 1 else targetIndex
                      .tabContainer i (panels1.insertIdx insertIndex sourcePanel)
                        (some sourcePanel.id)
      else .tabContainer i panels activeId

/-- TS `insertPanelIntoTabContainer`: splice the source panel into the tab
container with the given id: for `tab-into` append (or merely activate when a
panel with its id is present); otherwise remove a same-id panel first, then
insert at the target tab's index (after it for `tab-after`), appending when no
target is found.  The inserted panel becomes active. -/
def insertPanelIntoTabContainer (root : DockNode) (tabContainerId : String)
    (sourcePanel : PanelNode) (targetTabId : String) (position : DockingPosition) :
    DockNode :=
  match root with
  | .panel p => .panel p
  | .container i d f s sz =>
      .container i d
        (insertPanelIntoTabContainer f tabContainerId sourcePanel targetTabId position)
        (insertPanelIntoTabContainer s tabContainerId sourcePanel targetTabId position)
        sz
  | .tabContainer i panels activeId =>
      if i = tabContainerId then
        if position = .tabInto then
          if (panels.find? (fun p => p.id = sourcePanel.id)).isNone then
            .tabContainer i (panels ++ [sourcePanel]) (some sourcePanel.id)
          else .tabContainer i panels (some sourcePanel.id)
        else
          let panels1 :=
            match findIndex (fun p => p.id = sourcePanel.id) panels with
            | some existingIndex => panels.eraseIdx existingIndex
            | none => panels
          match findIndex (fun p => p.id = targetTabId) panels1 with
          | none => .tabContainer i (panels1 ++ [sourcePanel]) (some sourcePanel.id)
          | some targetIndex =>
              let insertIndex :=
                if position = .tabAfter then targetIndex + 1 else targetIndex
              .tabContainer i (panels1.insertIdx insertIndex sourcePanel)
                (some sourcePanel.id)
      else .tabContainer i panels activeId

/-- TS `insertPanelAtTarget`: tab positions go to the target's tab container
when it has one, else `tab-into` on a tab container appends, `tab-into` on a
panel wraps both in a new tab container, and any other tab position falls
back to a `"top"` split; edge positions split against the target node. -/
def insertPanelAtTarget (idGen : String → String) (now : Nat) (root : DockNode)
    (targetId : String) (sourcePanel : PanelNode) (pos : DockingPosition) :
    DockNode :=
  match findNodeById root targetId with
  | none => root
  | some targetNode =>
    if pos = .tabBefore ∨ pos = .tabAfter ∨ pos = .tabInto then
      match getParentTabContainerInTree root targetId with
      | some targetParentTab =>
          insertPanelIntoTabContainer root targetParentTab.getId sourcePanel
            targetId pos
      | none =>
          if targetNode.isTabContainer ∧ pos = .tabInto then
            addToExistingTabGroup root targetNode.getId sourcePanel
          else if targetNode.isPanel ∧ pos = .tabInto then
            createTabGroup idGen now root targetId sourcePanel
          else createSplitWithTarget idGen now root sourcePanel targetNode .top
    else createSplitWithTarget idGen now root sourcePanel targetNode pos

/-! ## Dock tree: panel creation helpers -/

/-- Does `s` end in a ` (N)` increment suffix (TS regex `/\s\((\d+)\)$/`)?
Returns `N` when it does. -/
def trailingIncrement? (s : String) : Option Nat :=
  match s.data.getLast? with
  | some ')' =>
      let body := s.data.dropLast.reverse
      let digits := body.takeWhile Char.isDigit
      match digits, body.drop digits.length with
      | [], _ => none
      | _, '(' :: w :: _ =>
          if w.isWhitespace then (String.mk digits.reverse).toNat? else none
      | _, _ => none
  | _ => none

/-- Replace the trailing digits before the final `)` by `n + 1` (TS
`result.replace(INCREMENT_INT, m => (+m + 1).toString())`). -/
def incrementName (s : String) (n : Nat) : String :=
  let body := s.data.dropLast
  let digits := body.reverse.takeWhile Char.isDigit
  String.mk (body.take (body.length - digits.length) ++ (toString (n + 1)).data ++ [')'])

/-- The `while (set.has(result))` loop of TS `getName`.  Successive candidates
are pairwise distinct, so `others.length + 1` iterations always suffice to
leave the set; the fuel makes the transcription total. -/
def getNameGo (set : List String) : Nat → String → String
  | 0, result => result
  | fuel + 1, result =>
      if result ∈ set then
        getNameGo set fuel
          (match trailingIncrement? result with
           | some n => incrementName result n
           | none => result ++ " (1)")
      else result

/-- TS `getName(name, others)` (`frontend/packages/dock/src/utils/index.ts`):
append or increment a ` (N)` suffix until the name is unused. -/
def getName (name : String) (others : List String) : String :=
  getNameGo others (others.length + 1) name

/-- TS `getPanelNames`: display names (`title ?? id`) of every panel. -/
def getPanelNames : DockNode → List String
  | .panel p => [p.title.getD p.id]
  | .container _ _ f s _ => getPanelNames f ++ getPanelNames s
  | .tabContainer _ panels _ => panels.map (fun p => p.title.getD p.id)

/-- TS `createPanelItem`: title falls back (for a missing or empty caller
title) to a unique name derived from the existing panel names; the panel id
is `createIdBySeed(panelTitle)`; content is `null`; the content key defaults
to `"default"`.  (The `_content` argument of the source is unused there and
omitted here.) -/
def createPanelItem (idGen : String → String) (existingTree : Option DockNode)
    (title : Option String) (contentKey : Option String) : PanelNode :=
  let panelTitle : String :=
    match title with
    | some t =>
        if t = "" then
          match existingTree with
          | some tree => getName "Panel" (getPanelNames tree)
          | none => "Panel"
        else t
    | none =>
        match existingTree with
        | some tree => getName "Panel" (getPanelNames tree)
        | none => "Panel"
  { id := idGen panelTitle
    title := some panelTitle
    content := none
    contentKey := contentKey.getD "default" }

/-! ## Dock tree: public operations -/

/-- TS `createInitialLayout`: the default single welcome panel. -/
def createInitialLayout (idGen : String → String) : DockNode :=
  .panel
    { id := idGen "initial-panel"
      title := some "Welcome"
      content := some "Welcome to Drawing Explorer"
      contentKey := "default" }

/-- TS `new DockingManager()` with the default layout: `activePanels` is
recalculated from the root. -/
def initialDockingState (idGen : String → String) : DockingState :=
  let root := createInitialLayout idGen
  { root := root
    activePanels := recalcActivePanels root []
    maximizedPanelId := none }

/-- TS `addPanel(contentKey?, title?)`: create a panel; wrap a panel root in a
horizontal container, split a container root's `second` child vertically, or
append to a tab-container root; then rebalance, optimise and recompute
`activePanels`.  Returns the new panel, the new state and the emitted
events. -/
def addPanel (idGen : String → String) (st : DockingState)
    (contentKey title : Option String) :
    PanelNode × DockingState × List DockEvent :=
  let newPanel := createPanelItem idGen (some st.root) title contentKey
  let updatedTree : DockNode :=
    match st.root with
    | .panel p =>
        .container (idGen ("container-" ++ p.id)) .horizontal
          (.panel p) (.panel newPanel) (1 / 2)
    | .container i d f s sz =>
        let newContainer : DockNode :=
          .container (idGen ("container-" ++ s.getId)) .vertical
            s (.panel newPanel) (1 / 2)
        replaceNode (.container i d f s sz) s.getId newContainer
    | .tabContainer i panels _ =>
        .tabContainer i (panels ++ [newPanel]) (some newPanel.id)
  let updatedTree := rebalanceTree updatedTree
  let updatedTree := (optimizeTreeStructure updatedTree).getD updatedTree
  let activePanels := recalcActivePanels updatedTree st.activePanels
  (newPanel, { st with root := updatedTree, activePanels := activePanels },
    [.panelAdded, .layoutChanged])

/-- TS `movePanel(sourceId, targetId, position)`: rejected while maximized,
for a self-move, or when the source is not a panel.  For tab positions with
source and target in the same tab container the tabs are reordered in place;
otherwise the source is detached and re-inserted (tab splice, fresh tab
group, or split), followed by rebalance/optimise and an `activePanels`
recalculation. -/
def movePanel (idGen : String → String) (now : Nat) (st : DockingState)
    (sourceId targetId : String) (position : DockingPosition) :
    Bool × DockingState × List DockEvent :=
  if st.maximizedPanelId ≠ none then (false, st, [])
  else if sourceId = targetId then (false, st, [])
  else
    match findNodeById st.root sourceId with
    | some (.panel sourcePanel) =>
        if position = .tabBefore ∨ position = .tabAfter ∨ position = .tabInto then
          let targetParentTab := getParentTabContainerInTree st.root targetId
          let sourceParentTab := getParentTabContainerInTree st.root sourceId
          let generalTabMove : Unit → Bool × DockingState × List DockEvent :=
            fun _ =>
              let (treeWithoutSource?, updatedActivePanels) :=
                removeNodeFromTree st.root sourceId st.activePanels
              match treeWithoutSource? with
              | none => (false, st, [])
              | some treeWithoutSource =>
                  let updatedTree :=
                    match targetParentTab with
                    | some tpt =>
                        insertPanelIntoTabContainer treeWithoutSource tpt.getId
                          sourcePanel targetId position
                    | none =>
                        if targetId ≠ "" ∧ position = .tabInto then
                          createTabGroup idGen now treeWithoutSource targetId
                            sourcePanel
                        else
                          insertPanelAtTarget idGen now treeWithoutSource targetId
                            sourcePanel .top
                  let updatedTree := rebalanceTree updatedTree
                  let updatedTree := (optimizeTreeStructure updatedTree).getD updatedTree
                  let activePanels := recalcActivePanels updatedTree updatedActivePanels
                  (true, { st with root := updatedTree, activePanels := activePanels },
                    [.panelMoved, .layoutChanged])
          match targetParentTab, sourceParentTab with
          | some tpt, some spt =>
              if tpt.getId = spt.getId then
                let updated :=
                  reorderTabsInContainer st.root tpt.getId sourceId targetId position
                (true, { st with root := updated }, [.panelMoved, .layoutChanged])
              else generalTabMove ()
          | _, _ => generalTabMove ()
        else
          let (treeWithoutSource?, updatedActivePanels) :=
            removeNodeFromTree st.root sourceId st.activePanels
          match treeWithoutSource? with
          | none => (false, st, [])
          | some treeWithoutSource =>
              let updatedTree :=
                insertPanelAtTarget idGen now treeWithoutSource targetId
                  sourcePanel position
              let updatedTree := rebalanceTree updatedTree
              let updatedTree := (optimizeTreeStructure updatedTree).getD updatedTree
              let activePanels := recalcActivePanels updatedTree updatedActivePanels
              (true, { st with root := updatedTree, activePanels := activePanels },
                [.panelMoved, .layoutChanged])
    | _ => (false, st, [])

/-- TS `resizeContainer(nodeId, newSize)`: rejected while maximized or when
`nodeId` is not a container in the tree; otherwise stores `newSize` via
`updateNodeSize` (the raw value — no clamping happens here). -/
def resizeContainer (st : DockingState) (nodeId : String) (newSize : ℚ) :
    Bool × DockingState × List DockEvent :=
  if st.maximizedPanelId ≠ none then (false, st, [])
  else
    match findNodeById st.root nodeId with
    | some (.container _ _ _ _ _) =>
        let updated := updateNodeSize st.root nodeId newSize
        (true, { st with root := updated }, [.resize, .layoutChanged])
    | _ => (false, st, [])

/-- Size of the container with id `nodeId` as `findNodeById` sees it. -/
def containerSizeAt (root : DockNode) (nodeId : String) : Option ℚ :=
  match findNodeById root nodeId with
  | some (.container _ _ _ _ sz) => some sz
  | _ => none

/-! ## Drop-position classifier -/

/-- A `DOMRect` restricted to the fields the classifier reads; `right` and
`bottom` are the usual derived edges. -/
structure DomRect where
  left : ℚ
  top : ℚ
  width : ℚ
  height : ℚ
  deriving DecidableEq, Repr

def DomRect.right (r : DomRect) : ℚ := r.left + r.width

def DomRect.bottom (r : DomRect) : ℚ := r.top + r.height

/-- `Math.abs` on the rationals (the embedded inputs are never `NaN`). -/
def mathAbs (q : ℚ) : ℚ := if q < 0 then -q else q

/-- TS `calculateDropPosition(clientOffset, rect, _targetType, headerRect?)`
(the `_targetType` argument is unused in the source and omitted): inside the
header rectangle the result is `tab-into`; otherwise the edge of the target
rectangle at minimal absolute distance, tested in the order top, bottom,
left, right. -/
def calculateDropPosition (clientOffset : ℚ × ℚ) (rect : DomRect)
    (headerRect : Option DomRect := none) : DockingPosition :=
  let x := clientOffset.1
  let y := clientOffset.2
  let headerHit : Bool :=
    match headerRect with
    | some h =>
        decide (x ≥ h.left) && decide (x ≤ h.right) &&
        decide (y ≥ h.top) && decide (y ≤ h.bottom)
    | none => false
  if headerHit then .tabInto
  else
    let distTop := mathAbs (y - rect.top)
    let distBottom := mathAbs (y - (rect.top + rect.height))
    let distLeft := mathAbs (x - rect.left)
    let distRight := mathAbs (x - (rect.left + rect.width))
    let minVal := min (min (min distTop distBottom) distLeft) distRight
    if minVal = distTop then .top
    else if minVal = distBottom then .bottom
    else if minVal = distLeft then .left
    else if minVal = distRight then .right
    else .top

/-! ## Frame-effect comparison function for the in-place tab activation

`reorderTabsInContainer` with `tab-into` is claimed to change nothing but the
`activeId` of the addressed tab container; `setActiveIdOnly` is that intended
effect written out directly, to be compared with the transcribed code. -/

/-- Set `activeId` of every tab container with id `tcId` and change nothing
else. -/
def setActiveIdOnly (root : DockNode) (tcId newActiveId : String) : DockNode :=
  match root with
  | .panel p => .panel p
  | .container i d f s sz =>
      .container i d (setActiveIdOnly f tcId newActiveId)
        (setActiveIdOnly s tcId newActiveId) sz
  | .tabContainer i panels a =>
      if i = tcId then .tabContainer i panels (some newActiveId)
      else .tabContainer i panels a

/-- Every tab container with id `tcId` holds a panel with id `pid` (ensures
the in-place reorder finds its source panel wherever it matches). -/
def tabsWithIdContainPanel (root : DockNode) (tcId pid : String) : Bool :=
  match root with
  | .panel _ => true
  | .container _ _ f s _ =>
      tabsWithIdContainPanel f tcId pid && tabsWithIdContainPanel s tcId pid
  | .tabContainer i panels _ =>
      if i = tcId then panels.any (fun p => p.id = pid) else true

/-- Replace the stored size when the node is a container (what
`updateNodeSize` does at a matched node). -/
def setSizeIfContainer (q : ℚ) : DockNode → DockNode
  | .container i d f s _ => .container i d f s q
  | n => n

/-! ## Concrete instances used by counterexamples and witnesses -/

/-- A root folder holding two plain files `x` and `y`. -/
def rootXY : TreeNode Unit :=
  .folder "r" "root" "" 0 [.file "fx" "x" "x" 1 (), .file "fy" "y" "y" 1 ()]

def ftXY : FTState Unit := FTState.ofRoot rootXY

/-- A root folder holding file `x` and folder `a` that already contains a
file named `x` (path `a/x`). -/
def rootDup : TreeNode Unit :=
  .folder "r" "root" "" 0
    [.file "f1" "x" "x" 1 (), .folder "d1" "a" "a" 1 [.file "f2" "x" "a/x" 2 ()]]

def ftDup : FTState Unit := FTState.ofRoot rootDup

/-- A root folder with folder `src` containing folder `src/util`. -/
def rootSrc : TreeNode Unit :=
  .folder "r" "root" "" 0
    [.folder "s" "src" "src" 1 [.folder "u" "util" "src/util" 2 []]]

def ftSrc : FTState Unit := FTState.ofRoot rootSrc

def panelA : PanelNode := ⟨"A", some "A", none, "k"⟩

def panelB : PanelNode := ⟨"B", some "B", none, "k"⟩

def panelC : PanelNode := ⟨"C", some "C", none, "k"⟩

/-- Dock state whose root is `TabContainer{[A, B, C], active = A}`. -/
def dockABC : DockingState :=
  ⟨.tabContainer "t" [panelA, panelB, panelC] (some "A"), [("t", "A")], none⟩

/-- Dock state whose root is `TabContainer{[A, B], active = A}`. -/
def dockAB : DockingState :=
  ⟨.tabContainer "t" [panelA, panelB] (some "A"), [("t", "A")], none⟩

/-- Dock state whose root is a single horizontal split of panels `A`, `B`. -/
def dockSplit : DockingState :=
  ⟨.container "c" .horizontal (.panel panelA) (.panel panelB) (1 / 2), [], none⟩

/-- The 100×100 target rectangle of the drop-classifier scenario. -/
def rect100 : DomRect := ⟨0, 0, 100, 100⟩

/-- Its 20-px-high header spanning the top. -/
def header20 : DomRect := ⟨0, 0, 100, 20⟩

/-- A history manager whose bound is 1 and whose undo stack holds one entry. -/
def hmOne : HistoryManager Nat := ⟨[⟨[], 0⟩], [], 1, none⟩

/-- A history manager with the default bound 100 and one entry. -/
def hmBig : HistoryManager Nat := ⟨[⟨[0], 0⟩], [], 100, none⟩

/-- Dock state `TabContainer{[A, B], active = A}` with panel `A` maximized. -/
def dockMaxed : DockingState :=
  ⟨.tabContainer "t" [panelA, panelB] (some "A"), [("t", "A")], some "A"⟩

/-- The welcome panel created by `createInitialLayout` under id generator `g`. -/
def welcomePanel (g : String → String) : PanelNode :=
  ⟨g "initial-panel", some "Welcome", some "Welcome to Drawing Explorer", "default"⟩

/-- The panel `addPanel("k", "B")` creates under id generator `g`. -/
def bPanel (g : String → String) : PanelNode := ⟨g "B", some "B", none, "k"⟩

/-- The dock root after the first `addPanel("k", "B")` from the default
layout. -/
def rootOneB (g : String → String) : DockNode :=
  .container (g ("container-" ++ g "initial-panel")) .horizontal
    (.panel (welcomePanel g)) (.panel (bPanel g)) (1 / 2)

/-- The container the second `addPanel("k", "B")` builds from the previous
`second` child and the new panel: both carry the id `g "B"`. -/
def nestedBB (g : String → String) : DockNode :=
  .container (g ("container-" ++ g "B")) .vertical
    (.panel (bPanel g)) (.panel (bPanel g)) (1 / 2)

/-- The dock state after `addPanel("k", "B")` twice from the default layout. -/
def dockAfterTwoAddPanels (g : String → String) : DockingState :=
  (addPanel g (addPanel g (initialDockingState g) (some "k") (some "B")).2.1
    (some "k") (some "B")).2.1

/-! ## Helper lemmas -/

/-- The self/descendant guard of `moveNode` rejects before any mutation. -/
theorem moveNode_guard_rejects {α : Type} (st : FTState α) (f t : String)
    (pos : DropPosition) (h : f = t ∨ t ∈ getSelfAndDescendants st f) :
    moveNode st f t pos = (false, st) := by
  unfold moveNode
  rcases hs : getNodeT st f with _ | sn
  · rfl
  · rcases ht : getNodeT st t with _ | tn
    · rfl
    · dsimp only
      rw [if_pos h]

/-- `push` keeps the size bound. -/
theorem push_maxSize {α : Type} (h : HistoryManager α) (s : List α) (n : Nat) :
    (h.push s n).maxHistorySize = h.maxHistorySize := rfl

/-- `push` empties the redo stack. -/
theorem push_redo {α : Type} (h : HistoryManager α) (s : List α) (n : Nat) :
    (h.push s n).redoStack = [] := rfl

/-- Length of the undo stack after one `push`. -/
theorem push_undo_length {α : Type} (h : HistoryManager α) (s : List α) (n : Nat) :
    (h.push s n).undoStack.length = min (h.undoStack.length + 1) h.maxHistorySize := by
  unfold HistoryManager.push
  dsimp only
  split
  · next hgt =>
      rw [List.length_drop]
      simp only [List.length_append, List.length_cons, List.length_nil] at hgt ⊢
      omega
  · next hle =>
      simp only [List.length_append, List.length_cons, List.length_nil] at hle ⊢
      omega

/-- With a positive bound, the undo stack after a `push` ends in the pushed
entry. -/
theorem push_undo_form {α : Type} (h : HistoryManager α) (s : List α) (n : Nat)
    (hmax : 1 ≤ h.maxHistorySize) :
    ∃ pre, (h.push s n).undoStack = pre ++ [⟨s, n⟩] := by
  unfold HistoryManager.push
  dsimp only
  split
  · have hd : (h.undoStack ++ [(⟨s, n⟩ : HistoryEntry α)]).length - h.maxHistorySize ≤
        h.undoStack.length := by
      simp only [List.length_append, List.length_cons, List.length_nil]
      omega
    exact ⟨_, List.drop_append_of_le_length hd⟩
  · exact ⟨h.undoStack, rfl⟩

/-- Length of the undo stack after a non-empty sequence of `push` calls. -/
theorem pushMany_length {α : Type} (calls : List (List α × Nat)) :
    ∀ (h : HistoryManager α), calls ≠ [] →
      (h.pushMany calls).undoStack.length =
        min (h.undoStack.length + calls.length) h.maxHistorySize := by
  induction calls with
  | nil => intro h hne; exact absurd rfl hne
  | cons c rest ih =>
      intro h _
      rcases rest with _ | ⟨c2, rest2⟩
      · simp only [HistoryManager.pushMany, List.foldl_cons, List.foldl_nil]
        simpa [List.length_cons] using push_undo_length h c.1 c.2
      · have hstep : (h.pushMany (c :: c2 :: rest2)) =
            ((h.push c.1 c.2).pushMany (c2 :: rest2)) := rfl
        rw [hstep, ih _ (by simp)]
        rw [push_maxSize, push_undo_length]
        simp only [List.length_cons]
        omega

/-- A successful `Array.findIndex` scan yields an in-range index whose
element satisfies the predicate. -/
theorem findIndexFrom_of_any {β : Type} (p : β → Bool) :
    ∀ (l : List β) (n : Nat), l.any p = true →
      ∃ i x, findIndexFrom p l n = some (n + i) ∧ l[i]? = some x ∧ p x = true := by
  intro l
  induction l with
  | nil => intro n hn; simp at hn
  | cons b rest ih =>
      intro n hn
      by_cases hb : p b = true
      · exact ⟨0, b, by simp [findIndexFrom, hb], by simp, hb⟩
      · have hrest : rest.any p = true := by
          simp only [List.any_cons, hb, Bool.false_or] at hn
          exact hn
        obtain ⟨i, x, hfi, hx, hpx⟩ := ih (n + 1) hrest
        refine ⟨i + 1, x, ?_, by simpa using hx, hpx⟩
        simp only [findIndexFrom, hb, if_false]
        rw [hfi]
        exact congrArg some (by omega)

/-- Specialisation of `findIndexFrom_of_any` to `findIndex`. -/
theorem findIndex_of_any {β : Type} (p : β → Bool) (l : List β) (h : l.any p = true) :
    ∃ i x, findIndex p l = some i ∧ l[i]? = some x ∧ p x = true := by
  obtain ⟨i, x, hfi, hx, hpx⟩ := findIndexFrom_of_any p l 0 h
  exact ⟨i, x, by simpa using hfi, hx, hpx⟩

/-- The in-place `tab-into` reorder only sets `activeId` of the addressed tab
container. -/
theorem reorder_tabInto_eq_setActive (root : DockNode) (tcId srcId tgtId : String)
    (hframe : tabsWithIdContainPanel root tcId srcId = true) :
    reorderTabsInContainer root tcId srcId tgtId .tabInto =
      setActiveIdOnly root tcId srcId := by
  induction root with
  | panel p => rfl
  | container i d f s sz ihf ihs =>
      unfold tabsWithIdContainPanel at hframe
      rw [Bool.and_eq_true] at hframe
      unfold reorderTabsInContainer setActiveIdOnly
      rw [ihf hframe.1, ihs hframe.2]
  | tabContainer i panels a =>
      unfold tabsWithIdContainPanel at hframe
      by_cases hi : i = tcId
      · rw [if_pos hi] at hframe
        obtain ⟨i0, sp, hfi, hsp, hpid⟩ :=
          findIndex_of_any (fun p => decide (p.id = srcId)) panels hframe
        unfold reorderTabsInContainer setActiveIdOnly
        rw [if_pos hi, if_pos hi, hfi]
        dsimp only
        rw [hsp]
        dsimp only
        rw [if_pos rfl, of_decide_eq_true hpid]
      · unfold reorderTabsInContainer setActiveIdOnly
        rw [if_neg hi, if_neg hi]

/-- `findNodeById` after `updateNodeSize` sees the same node with its size
replaced when it is a container. -/
theorem findNodeById_updateNodeSize (t : DockNode) (i : String) (q : ℚ) :
    findNodeById (updateNodeSize t i q) i =
      (findNodeById t i).map (setSizeIfContainer q) := by
  induction t with
  | panel p =>
      by_cases hp : p.id = i <;>
        simp [updateNodeSize, findNodeById, hp, setSizeIfContainer]
  | container ci d f s sz ihf ihs =>
      by_cases hci : ci = i
      · simp [updateNodeSize, findNodeById, hci, setSizeIfContainer]
      · simp only [updateNodeSize, findNodeById, hci, if_false, ihf, ihs]
        rcases hf : findNodeById f i with _ | r <;> simp
  | tabContainer ti panels a =>
      by_cases hti : ti = i
      · simp [updateNodeSize, findNodeById, hti, setSizeIfContainer]
      · simp only [updateNodeSize, findNodeById, hti, if_false]
        rcases hfind : panels.find? (fun p => decide (p.id = i)) with _ | p <;>
          rw [hfind] <;> simp [setSizeIfContainer]

/-- `movePanel` either reports success, or fails with the state unchanged and
no events emitted. -/
theorem movePanel_result_cases (idGen : String → String) (now : Nat)
    (st : DockingState) (s t : String) (pos : DockingPosition) :
    (movePanel idGen now st s t pos).1 = true ∨
      movePanel idGen now st s t pos = (false, st, []) := by
  unfold movePanel
  dsimp only
  repeat' split
  all_goals first | (left; rfl) | (right; rfl)

/-- A successful `findIndexFrom` scan locates a satisfying element. -/
theorem findIndexFrom_some {β : Type} (p : β → Bool) :
    ∀ (l : List β) (n j : Nat), findIndexFrom p l n = some j →
      ∃ i x, j = n + i ∧ l[i]? = some x ∧ p x = true := by
  intro l
  induction l with
  | nil => intro n j hj; simp [findIndexFrom] at hj
  | cons b rest ih =>
      intro n j hj
      by_cases hb : p b = true
      · simp only [findIndexFrom, hb, if_true, Option.some.injEq] at hj
        exact ⟨0, b, by omega, by simp, hb⟩
      · simp only [findIndexFrom, hb, if_false] at hj
        obtain ⟨i, x, hji, hx, hpx⟩ := ih (n + 1) j hj
        exact ⟨i + 1, x, by omega, by simpa using hx, hpx⟩

/-- A successful `findIndex` yields an in-range satisfying element. -/
theorem findIndex_some {β : Type} (p : β → Bool) (l : List β) (i : Nat)
    (h : findIndex p l = some i) :
    ∃ x, l[i]? = some x ∧ p x = true := by
  obtain ⟨i', x, hji, hx, hpx⟩ := findIndexFrom_some p l 0 i h
  exact ⟨x, by simpa [hji] using hx, hpx⟩

/-- The child scan of `checkDuplicateName` reports an error exactly when a
non-excluded sibling name matches case-insensitively. -/
theorem dupNameScan_spec {α : Type} (name : String) (excludePath : Option String)
    (cs : List (TreeNode α)) :
    dupNameScan name excludePath cs ≠ none ↔
      ∃ c ∈ cs, ¬ excludePath = some c.path ∧
        jsToLower c.name = jsToLower name := by
  induction cs with
  | nil => simp [dupNameScan]
  | cons c rest ih =>
      by_cases hex : excludePath = some c.path
      · rw [hex] at ih
        simp [dupNameScan, hex, ih]
      · by_cases hn : jsToLower c.name = jsToLower name
        · simp [dupNameScan, hex, hn]
        · simp [dupNameScan, hex, hn, ih]

/-- `OPFSStore.checkDuplicateName` reports an error exactly when the resolved
parent has a non-excluded child with the same name case-insensitively. -/
theorem checkDuplicateName_spec {α : Type} (root? : Option (TreeNode α))
    (parentPath name : String) (excludePath : Option String) (parent : TreeNode α)
    (hp : (if parentPath = "" then root?
        else root?.bind (fun r => findFolderByPath r parentPath)) = some parent) :
    checkDuplicateName root? parentPath name excludePath ≠ none ↔
      ∃ c ∈ parent.childrenOf, ¬ excludePath = some c.path ∧
        jsToLower c.name = jsToLower name := by
  unfold checkDuplicateName
  rw [hp]
  exact dupNameScan_spec name excludePath parent.childrenOf

/-- On the reachable `"inside"`-on-non-folder path `moveNode` returns
`false` (after having already spliced the source out). -/
theorem moveNode_inside_nonfolder_false {α : Type} (st : FTState α) (s t : String)
    (sn tn sp : TreeNode α) (si : Nat)
    (hs : getNodeT st s = some sn) (ht : getNodeT st t = some tn)
    (hnf : tn.isFolder = false)
    (hguard : ¬ (s = t ∨ t ∈ getSelfAndDescendants st s))
    (hsp : folderAtLoc st.root (parentLocOf s) = some sp)
    (hsi : findIndex (fun c => decide (c.path = s)) sp.childrenOf = some si) :
    (moveNode st s t .inside).1 = false := by
  unfold moveNode
  rw [hs, ht]
  dsimp only
  rw [if_neg hguard, hsp]
  dsimp only
  rw [hsi]
  dsimp only
  obtain ⟨x, hx, _⟩ := findIndex_some _ sp.childrenOf si hsi
  rw [hx]
  dsimp only
  rw [hnf]
  rfl

/-- A pointer inside the header rectangle always classifies as `tab-into`. -/
theorem calcDrop_header_tabInto (x y : ℚ) (r h : DomRect)
    (h1 : h.left ≤ x) (h2 : x ≤ h.right) (h3 : h.top ≤ y) (h4 : y ≤ h.bottom) :
    calculateDropPosition (x, y) r (some h) = .tabInto := by
  unfold calculateDropPosition
  dsimp only
  have hhit : (decide (x ≥ h.left) && decide (x ≤ h.right) && decide (y ≥ h.top) &&
      decide (y ≤ h.bottom)) = true := by
    simp [ge_iff_le, h1, h2, h3, h4]
  rw [hhit]
  rfl

/-! ## Claims -/

/-- C1.  `DockingManager.movePanel` is indeed non-destructive on rejection:
every call either returns true or returns false with the state unchanged and
no events emitted.  `FileTreeManager.moveNode`, however, is not: on the
concrete tree with root children `x`, `y` (both files),
`moveNode("x", "y", "inside")` returns false yet removes `x` from the root's
children — the source is spliced out before the non-folder target check. -/
theorem claim_C1_rejected_moves :
    (∀ (idGen : String → String) (now : Nat) (st : DockingState) (s t : String)
      (pos : DockingPosition),
      (movePanel idGen now st s t pos).1 = true ∨
        movePanel idGen now st s t pos = (false, st, [])) ∧
    (moveNode ftXY "x" "y" DropPosition.inside).1 = false ∧
    rootChildNames (moveNode ftXY "x" "y" DropPosition.inside).2 = ["y"] ∧
    rootChildNames ftXY = ["x", "y"] ∧
    (moveNode ftXY "x" "y" DropPosition.inside).2 ≠ ftXY :=
  ⟨movePanel_result_cases, rfl, rfl, rfl,
    fun h => absurd (congrArg rootChildNames h) (by decide)⟩

/-- C2.  For every id generator (in particular the seeded `createIdBySeed`),
two `addPanel` calls with the same caller-supplied title `"B"` from the
default layout leave the tree with at least two occurrences of the id
derived from `"B"` — the id-uniqueness invariant is violated. -/
theorem claim_C2_duplicate_panel_ids (g : String → String) :
    2 ≤ ((dockAfterTwoAddPanels g).root.collectIds.count (g "B")) ∧
    ¬ (dockAfterTwoAddPanels g).root.collectIds.Nodup := by
  have h2 : (dockAfterTwoAddPanels g).root =
      (optimizeTreeStructure (rebalanceTree
        (replaceNode (rootOneB g) (g "B") (nestedBB g)))).getD
      (rebalanceTree (replaceNode (rootOneB g) (g "B") (nestedBB g))) := rfl
  suffices hcnt : 2 ≤ ((dockAfterTwoAddPanels g).root.collectIds.count (g "B")) by
    refine ⟨hcnt, fun hnd => ?_⟩
    have hle := List.nodup_iff_count_le_one.mp hnd (g "B")
    omega
  rw [h2]
  rcases eq_or_ne (g ("container-" ++ g "initial-panel")) (g "B") with hCB | hCB
  · have hroot : replaceNode (rootOneB g) (g "B") (nestedBB g) = nestedBB g := by
      simp only [rootOneB, replaceNode]
      rw [if_pos hCB]
    rw [hroot]
    have hfin : (optimizeTreeStructure (rebalanceTree (nestedBB g))).getD
        (rebalanceTree (nestedBB g)) = nestedBB g := rfl
    rw [hfin]
    simp only [nestedBB, bPanel, DockNode.collectIds, List.count_cons,
      List.count_nil, List.count_append, List.map_cons, List.map_nil, beq_iff_eq]
    split_ifs <;> omega
  · rcases eq_or_ne (g "initial-panel") (g "B") with hWB | hWB
    · have hroot : replaceNode (rootOneB g) (g "B") (nestedBB g) =
          .container (g ("container-" ++ g "initial-panel")) .horizontal
            (nestedBB g) (nestedBB g) (1 / 2) := by
        simp only [rootOneB, replaceNode, welcomePanel, bPanel]
        rw [if_neg hCB, if_pos hWB]
        simp
      rw [hroot]
      have hfin : (optimizeTreeStructure (rebalanceTree
          (DockNode.container (g ("container-" ++ g "initial-panel")) .horizontal
            (nestedBB g) (nestedBB g) (1 / 2)))).getD
          (rebalanceTree
          (DockNode.container (g ("container-" ++ g "initial-panel")) .horizontal
            (nestedBB g) (nestedBB g) (1 / 2))) =
          DockNode.container (g ("container-" ++ g "initial-panel")) .horizontal
            (nestedBB g) (nestedBB g) (1 / 2) := rfl
      rw [hfin]
      simp only [nestedBB, bPanel, DockNode.collectIds, List.count_cons,
        List.count_nil, List.count_append, List.map_cons, List.map_nil,
        beq_iff_eq]
      split_ifs <;> omega
    · have hroot : replaceNode (rootOneB g) (g "B") (nestedBB g) =
          .container (g ("container-" ++ g "initial-panel")) .horizontal
            (.panel (welcomePanel g)) (nestedBB g) (1 / 2) := by
        simp only [rootOneB, replaceNode, welcomePanel, bPanel]
        rw [if_neg hCB, if_neg hWB]
        simp
      rw [hroot]
      have hfin : (optimizeTreeStructure (rebalanceTree
          (DockNode.container (g ("container-" ++ g "initial-panel")) .horizontal
            (.panel (welcomePanel g)) (nestedBB g) (1 / 2)))).getD
          (rebalanceTree
          (DockNode.container (g ("container-" ++ g "initial-panel")) .horizontal
            (.panel (welcomePanel g)) (nestedBB g) (1 / 2))) =
          DockNode.container (g ("container-" ++ g "initial-panel")) .horizontal
            (.panel (welcomePanel g)) (nestedBB g) (1 / 2) := rfl
      rw [hfin]
      simp only [nestedBB, bPanel, welcomePanel, DockNode.collectIds,
        List.count_cons, List.count_nil, List.count_append, List.map_cons,
        List.map_nil, beq_iff_eq]
      split_ifs <;> omega

/-- C3 counterexample.  The destination folder `a` already has a child named
`x` — the store's own `checkDuplicateName` reports the duplicate — yet
`moveNode("x", "a", "inside")` succeeds: `moveNode` performs no duplicate-name
check. -/
theorem claim_C3_counterexample :
    (moveNode ftDup "x" "a" DropPosition.inside).1 = true ∧
    (checkDuplicateName ftDup.root "a" "x" none).isSome = true :=
  ⟨rfl, rfl⟩

/-- C3 amended.  `moveNode` fails (state unchanged) when source equals the
target or the target is a self-or-descendant path; it returns false for
`"inside"` on a non-folder target; the duplicate-name rejection is not in
`moveNode` but in `OPFSStore.checkDuplicateName`, which reports an error
exactly when a non-excluded sibling name matches case-insensitively. -/
theorem claim_C3_amended :
    (∀ {α : Type} (st : FTState α) (f t : String) (pos : DropPosition),
      f = t ∨ t ∈ getSelfAndDescendants st f → moveNode st f t pos = (false, st)) ∧
    (∀ {α : Type} (st : FTState α) (s t : String) (sn tn sp : TreeNode α) (si : Nat),
      getNodeT st s = some sn → getNodeT st t = some tn → tn.isFolder = false →
      ¬ (s = t ∨ t ∈ getSelfAndDescendants st s) →
      folderAtLoc st.root (parentLocOf s) = some sp →
      findIndex (fun c => decide (c.path = s)) sp.childrenOf = some si →
      (moveNode st s t .inside).1 = false) ∧
    (∀ {α : Type} (root? : Option (TreeNode α)) (parentPath name : String)
      (excludePath : Option String) (parent : TreeNode α),
      (if parentPath = "" then root?
        else root?.bind (fun r => findFolderByPath r parentPath)) = some parent →
      (checkDuplicateName root? parentPath name excludePath ≠ none ↔
        ∃ c ∈ parent.childrenOf, ¬ excludePath = some c.path ∧
          jsToLower c.name = jsToLower name)) :=
  ⟨fun st f t pos h => moveNode_guard_rejects st f t pos h,
   fun st s t sn tn sp si hs ht hnf hg hsp hsi =>
     moveNode_inside_nonfolder_false st s t sn tn sp si hs ht hnf hg hsp hsi,
   fun root? pp name ex parent hp => checkDuplicateName_spec root? pp name ex parent hp⟩

/-- C3 witness: the three amended statements at concrete inputs. -/
theorem claim_C3_witness :
    moveNode ftDup "a" "a" DropPosition.before = (false, ftDup) ∧
    (moveNode ftXY "x" "y" DropPosition.inside).1 = false ∧
    (checkDuplicateName ftDup.root "a" "x" none ≠ none ↔
      ∃ c ∈ (TreeNode.folder "d1" "a" "a" 1
          [TreeNode.file "f2" "x" "a/x" 2 ()]).childrenOf,
        ¬ (none : Option String) = some c.path ∧ jsToLower c.name = jsToLower "x") :=
  ⟨claim_C3_amended.1 ftDup "a" "a" DropPosition.before (Or.inl rfl),
   claim_C3_amended.2.1 ftXY "x" "y" (.file "fx" "x" "x" 1 ())
     (.file "fy" "y" "y" 1 ()) rootXY 0 rfl rfl rfl (by decide) rfl rfl,
   claim_C3_amended.2.2 ftDup.root "a" "x" none
     (.folder "d1" "a" "a" 1 [.file "f2" "x" "a/x" 2 ()]) rfl⟩

/-- C4 counterexample.  With no panel maximized, `resizeContainer("c", 0.95)`
stores 0.95 itself, which lies outside `[0.1, 0.9]`: no clamping happens. -/
theorem claim_C4_counterexample :
    containerSizeAt (resizeContainer dockSplit "c" (19 / 20)).2.1.root "c" =
      some (19 / 20) ∧ ¬ ((19 : ℚ) / 20 ≤ 9 / 10) :=
  ⟨rfl, by norm_num⟩

/-- C4 amended.  `resizeContainer` is rejected (state unchanged, no events)
whenever a panel is maximized; otherwise, for a container id present in the
tree it returns true and stores exactly the given size — the clamping to
`[0.1, 0.9]` happens in the caller (the `Divider` component), not here. -/
theorem claim_C4_amended :
    (∀ (st : DockingState) (nodeId : String) (q : ℚ),
      st.maximizedPanelId ≠ none → resizeContainer st nodeId q = (false, st, [])) ∧
    (∀ (st : DockingState) (nodeId : String) (q : ℚ),
      st.maximizedPanelId = none → (containerSizeAt st.root nodeId).isSome →
      (resizeContainer st nodeId q).1 = true ∧
      containerSizeAt (resizeContainer st nodeId q).2.1.root nodeId = some q) := by
  constructor
  · intro st nodeId q hm
    unfold resizeContainer
    rw [if_pos hm]
  · intro st nodeId q hm hsome
    unfold containerSizeAt at hsome
    rcases hfind : findNodeById st.root nodeId with _ | node
    · rw [hfind] at hsome; simp at hsome
    · rcases node with p | ⟨ci, d, f, s, sz⟩ | ⟨ti, panels, a⟩
      · rw [hfind] at hsome; simp at hsome
      · unfold resizeContainer
        rw [if_neg (by simp [hm]), hfind]
        dsimp only
        refine ⟨rfl, ?_⟩
        unfold containerSizeAt
        rw [findNodeById_updateNodeSize, hfind]
        rfl
      · rw [hfind] at hsome; simp at hsome

/-- C4 witness: both amended statements at concrete states. -/
theorem claim_C4_witness :
    (dockMaxed.maximizedPanelId ≠ none ∧
      resizeContainer dockMaxed "t" (1 / 2) = (false, dockMaxed, [])) ∧
    (dockSplit.maximizedPanelId = none ∧
      (containerSizeAt dockSplit.root "c").isSome = true) ∧
    ((resizeContainer dockSplit "c" (19 / 20)).1 = true ∧
      containerSizeAt (resizeContainer dockSplit "c" (19 / 20)).2.1.root "c" =
        some (19 / 20)) :=
  ⟨⟨by decide, claim_C4_amended.1 dockMaxed "t" (1 / 2) (by decide)⟩,
   ⟨rfl, rfl⟩,
   claim_C4_amended.2 dockSplit "c" (19 / 20) rfl (by rfl)⟩

/-- C5.  Moving a node onto itself or into its own descendants always fails
with the state unchanged: the guard runs before any mutation. -/
theorem claim_C5_cycle_rejection {α : Type} (st : FTState α) (f t : String)
    (pos : DropPosition) (h : f = t ∨ t ∈ getSelfAndDescendants st f) :
    moveNode st f t pos = (false, st) :=
  moveNode_guard_rejects st f t pos h

/-- C5 witness: the literal scenario — folder `src` contains `src/util`, and
`moveNode("src", "src/util", "inside")` returns false with the state
unchanged. -/
theorem claim_C5_witness :
    ("src/util" ∈ getSelfAndDescendants ftSrc "src") ∧
    moveNode ftSrc "src" "src/util" DropPosition.inside = (false, ftSrc) :=
  ⟨by decide, claim_C5_cycle_rejection ftSrc "src" "src/util" DropPosition.inside
    (Or.inr (by decide))⟩

/-- C6.  After `maxSize + k` pushes from any state the undo stack length is
exactly `maxSize`; and each `push` clears the redo stack, appends the new
entry at the top, and drops entries only from the front. -/
theorem claim_C6_undo_bound :
    (∀ {α : Type} (h : HistoryManager α) (k : Nat) (calls : List (List α × Nat)),
      1 ≤ h.maxHistorySize → calls.length = h.maxHistorySize + k →
      (h.pushMany calls).undoStack.length = h.maxHistorySize) ∧
    (∀ {α : Type} (m : HistoryManager α) (s : List α) (n : Nat),
      (m.push s n).redoStack = [] ∧
      (m.push s n).undoStack.length = min (m.undoStack.length + 1) m.maxHistorySize ∧
      (m.push s n).undoStack <:+ (m.undoStack ++ [⟨s, n⟩]) ∧
      (1 ≤ m.maxHistorySize → (m.push s n).undoStack.getLast? = some ⟨s, n⟩)) := by
  constructor
  · intro α h k calls hmax hlen
    have hne : calls ≠ [] := by
      intro hnil
      subst hnil
      simp only [List.length_nil] at hlen
      omega
    rw [pushMany_length calls h hne, hlen]
    omega
  · intro α m s n
    refine ⟨rfl, push_undo_length m s n, ?_, ?_⟩
    · unfold HistoryManager.push
      dsimp only
      split
      · exact List.drop_suffix _ _
      · exact List.suffix_refl _
    · intro hm
      obtain ⟨pre, hpre⟩ := push_undo_form m s n hm
      rw [hpre, List.getLast?_concat]

/-- C6 witness: a bound-2 manager keeps exactly 2 entries after 3 pushes. -/
theorem claim_C6_witness :
    (1 ≤ (HistoryManager.create Nat 2).maxHistorySize ∧
      ([([1], 0), ([2], 1), ([3], 2)] : List (List Nat × Nat)).length =
        (HistoryManager.create Nat 2).maxHistorySize + 1) ∧
    ((HistoryManager.create Nat 2).pushMany
        [([1], 0), ([2], 1), ([3], 2)]).undoStack.length =
      (HistoryManager.create Nat 2).maxHistorySize :=
  ⟨⟨by decide, by decide⟩,
    claim_C6_undo_bound.1 (HistoryManager.create Nat 2) 1
      [([1], 0), ([2], 1), ([3], 2)] (by decide) (by decide)⟩

/-- C7 counterexample.  With `maxSize = 1` and a non-empty undo stack, the
push evicts the only previous entry, so the subsequent `undo()` returns
`null`: the composite `push; undo; redo` does not succeed on every state with
a non-empty undo stack. -/
theorem claim_C7_counterexample : (hmOne.push [1] 1).undo = none := rfl

/-- C7 amended.  For every history state with a non-empty undo stack and
`maxSize ≥ 2`, `push(S); undo(); redo()` succeeds, and both the strokes
returned by `redo()` and the resulting current strokes equal `S`. -/
theorem claim_C7_amended {α : Type} (h : HistoryManager α) (S : List α) (n : Nat)
    (hne : h.undoStack ≠ []) (hmax : 2 ≤ h.maxHistorySize) :
    ∃ u r, (h.push S n).undo = some u ∧ u.1.redo = some r ∧
      r.2 = S ∧ r.1.getCurrentStrokes = S := by
  obtain ⟨pre, hpre⟩ := push_undo_form h S n (by omega)
  have hlen1 : (h.push S n).undoStack.length =
      min (h.undoStack.length + 1) h.maxHistorySize := push_undo_length h S n
  have hlen2 : 2 ≤ (h.push S n).undoStack.length := by
    rw [hlen1]
    have : 1 ≤ h.undoStack.length := List.length_pos.mpr hne
    omega
  refine ⟨(⟨pre, [⟨S, n⟩], h.maxHistorySize, h.savedEntry⟩,
      HistoryManager.getCurrentStrokes ⟨pre, [⟨S, n⟩], h.maxHistorySize, h.savedEntry⟩),
    (⟨pre ++ [⟨S, n⟩], [], h.maxHistorySize, h.savedEntry⟩, S), ?_, ?_, rfl, ?_⟩
  · unfold HistoryManager.undo
    rw [if_neg (by omega), hpre, List.getLast?_concat, List.dropLast_concat]
    rfl
  · unfold HistoryManager.redo
    rw [if_neg (by simp)]
    rfl
  · unfold HistoryManager.getCurrentStrokes
    rw [List.getLast?_concat]

/-- C7 witness: the round trip on a default-bound manager with one entry. -/
theorem claim_C7_witness :
    (hmBig.undoStack ≠ [] ∧ 2 ≤ hmBig.maxHistorySize) ∧
    (∃ u r, (hmBig.push [5] 7).undo = some u ∧ u.1.redo = some r ∧
      r.2 = [5] ∧ r.1.getCurrentStrokes = [5]) :=
  ⟨⟨by decide, by decide⟩, claim_C7_amended hmBig [5] 7 (by decide) (by decide)⟩

/-- C8 counterexample.  The in-place tab reorder emits `panelMoved` and then
`layoutChanged` — not a single event. -/
theorem claim_C8_counterexample :
    (movePanel id 0 dockABC "C" "A" DockingPosition.tabBefore).2.2 ≠
      [DockEvent.panelMoved] := by
  decide

/-- C8 amended.  From `TabContainer{[A, B, C], active = A}`,
`movePanel("C", "A", "tab-before")` succeeds for every id generator, yields
`TabContainer{[C, A, B], active = C}` in place, and emits `panelMoved`
followed by `layoutChanged`. -/
theorem claim_C8_amended : ∀ (idGen : String → String) (now : Nat),
    movePanel idGen now dockABC "C" "A" .tabBefore =
      (true,
        { dockABC with root := .tabContainer "t" [panelC, panelA, panelB] (some "C") },
        [.panelMoved, .layoutChanged]) :=
  fun _ _ => rfl

/-- C9 counterexample.  At the centre (50, 50) of the 100×100 panel the
pointer is below the 20-px header, all four edge distances tie at 50, and the
tie-break returns `top`, not `tab-into`. -/
theorem claim_C9_counterexample :
    calculateDropPosition (50, 50) rect100 (some header20) ≠
      DockingPosition.tabInto := by
  norm_num [calculateDropPosition, mathAbs, rect100, header20,
    DomRect.right, DomRect.bottom]
  decide

/-- C9 amended.  The general rule holds — inside the header the classifier
returns `tab-into`, otherwise the nearest edge with ties broken top, bottom,
left, right — but on the 100×100 panel with a 20-px header the examples come
out as: (50, 50) → `top` (all distances tie), (50, 5) → `tab-into` (inside
the header), (95, 50) → `right`. -/
theorem claim_C9_amended :
    (∀ (x y : ℚ) (r h : DomRect), h.left ≤ x → x ≤ h.right → h.top ≤ y →
      y ≤ h.bottom → calculateDropPosition (x, y) r (some h) = .tabInto) ∧
    calculateDropPosition (50, 50) rect100 (some header20) = .top ∧
    calculateDropPosition (50, 5) rect100 (some header20) = .tabInto ∧
    calculateDropPosition (95, 50) rect100 (some header20) = .right := by
  refine ⟨calcDrop_header_tabInto, ?_, ?_, ?_⟩ <;>
    norm_num [calculateDropPosition, mathAbs, rect100, header20,
      DomRect.right, DomRect.bottom]

/-- C9 witness: the header rule applied at (50, 5). -/
theorem claim_C9_witness :
    (header20.left ≤ (50 : ℚ) ∧ (50 : ℚ) ≤ header20.right ∧
      header20.top ≤ (5 : ℚ) ∧ (5 : ℚ) ≤ header20.bottom) ∧
    calculateDropPosition (50, 5) rect100 (some header20) = .tabInto :=
  ⟨⟨by norm_num [header20], by norm_num [header20, DomRect.right],
      by norm_num [header20], by norm_num [header20, DomRect.bottom]⟩,
    claim_C9_amended.1 50 5 rect100 header20 (by norm_num [header20])
      (by norm_num [header20, DomRect.right]) (by norm_num [header20])
      (by norm_num [header20, DomRect.bottom])⟩

/-- C10.  `movePanel(source, target, "tab-into")` for two distinct panels of
the same tab container (no panel maximized) returns true and changes the
tree only by setting that tab container's `activeId` to the source id; the
`activePanels` map and `maximizedPanelId` are untouched, and the emitted
events are `panelMoved` then `layoutChanged`. -/
theorem claim_C10_tab_into_frame (idGen : String → String) (now : Nat)
    (st : DockingState) (sourceId targetId : String) (tct tcs : DockNode)
    (hmaxi : st.maximizedPanelId = none)
    (hne : sourceId ≠ targetId)
    (hsrc : ∃ p, findNodeById st.root sourceId = some (.panel p))
    (htp : getParentTabContainerInTree st.root targetId = some tct)
    (hsp : getParentTabContainerInTree st.root sourceId = some tcs)
    (hid : tct.getId = tcs.getId)
    (hframe : tabsWithIdContainPanel st.root tct.getId sourceId = true) :
    movePanel idGen now st sourceId targetId .tabInto =
      (true, { st with root := setActiveIdOnly st.root tct.getId sourceId },
        [.panelMoved, .layoutChanged]) := by
  obtain ⟨p, hp⟩ := hsrc
  unfold movePanel
  rw [if_neg (by simp [hmaxi]), if_neg hne, hp]
  dsimp only
  rw [if_pos (by decide)]
  rw [htp, hsp]
  dsimp only
  rw [if_pos hid]
  rw [reorder_tabInto_eq_setActive st.root tct.getId sourceId targetId hframe]

/-- C10 witness: on `TabContainer{[A, B], active = A}`, moving `B` onto `A`
with `tab-into` only activates `B`. -/
theorem claim_C10_witness :
    movePanel (fun s => s) 0 dockAB "B" "A" .tabInto =
      (true, { dockAB with root := setActiveIdOnly dockAB.root "t" "B" },
        [.panelMoved, .layoutChanged]) :=
  claim_C10_tab_into_frame (fun s => s) 0 dockAB "B" "A"
    (.tabContainer "t" [panelA, panelB] (some "A"))
    (.tabContainer "t" [panelA, panelB] (some "A"))
    rfl (by decide) ⟨panelB, rfl⟩ rfl rfl rfl (by decide)

end DrawingExplorer
